import Mathlib

/-!
Verification of the `plugins-workspace` repository: the `trem-kit` plugin
contract (configuration accessor, event subscription, plugin factory) and the
example WebSocket plugin.

The kit itself is almost entirely TypeScript type declarations: the `AppConfig`
`get`/`set` methods and the `App` `on`/`once`/`off` methods are *interface*
members implemented by the external host application, which is not part of this
repository.  Their behaviour is therefore modelled from the specification (and
the doc comments on the declarations, which agree with it).  The parts that do
have runtime code in the repository — `definePlugin` and the WebSocket example
plugin's `setup` closures — are embedded directly from the source.
-/

namespace TremKit

/-- A primitive configuration value: `string | number | boolean`
(`ConfigValue` in `packages/trem-kit/src/index.ts`).  JavaScript numbers are
modelled as integers; no claim depends on fractional config values. -/
inductive ConfigValue
  | str (s : String)
  | num (n : Int)
  | bool (b : Bool)
deriving DecidableEq, Repr

/-- A configuration field value: a primitive or a homogeneous array of
primitives (`ConfigValues` in the source). -/
inductive ConfigValues
  | prim (v : ConfigValue)
  | arr (vs : List ConfigValue)
deriving DecidableEq, Repr

/-- One configuration field (`Config` interface in the source): display name,
description, default value, and an optional list of valid choices. -/
structure Config where
  name : String
  description : String
  default : ConfigValues
  choices : Option (List ConfigValue)
deriving DecidableEq, Repr

/-- A plugin's configuration schema (`ConfigDef = Record<string, Config>` in
the source): a finite map from storage key to field, modelled as an
association list with unique keys looked up by `List.lookup`. -/
def ConfigDef : Type := List (String × Config)

/-- Whether two primitive values have the same primitive type
(string/number/boolean). -/
def ConfigValue.sameKind : ConfigValue → ConfigValue → Bool
  | .str _, .str _ => true
  | .num _, .num _ => true
  | .bool _, .bool _ => true
  | _, _ => false

/-- Modelled from the spec: the host-side validity check of `set`'s value
against the field's declaration (§4.1: a value violating the declared type or
choices is rejected with `InvalidValue`).  For a field with `choices` the
value must be a non-empty selection drawn from the choices; otherwise it must
match the shape of the field's `default` (primitive of the same primitive
type, or an array — element types of arrays are not checked because fields
such as the WebSocket plugin's `service` declare an empty-array default,
which fixes no element type). -/
def valueOk (field : Config) (v : ConfigValues) : Bool :=
  match field.choices with
  | some cs =>
      match v with
      | .arr l => !l.isEmpty && l.all (fun x => cs.contains x)
      | .prim _ => false
  | none =>
      match field.default, v with
      | .prim d, .prim w => d.sameKind w
      | .arr _, .arr _ => true
      | _, _ => false

/-- Modelled from the spec: the host-managed per-plugin configuration storage
(§4.1 — the host persists values `set` by the plugin; an unset key holds
nothing). -/
def Store : Type := String → Option ConfigValues

/-- The storage of a freshly loaded plugin: no field has been set. -/
def emptyStore : Store := fun _ => none

/-- Modelled from the spec: `AppConfig.set` (declared at
`packages/trem-kit/src/index.ts:120-125`, implemented host-side).  Per §4.1
and the declaration's doc comment: an invalid key rejects the call
(`InvalidKey`, prior state unchanged); `null` clears the stored override so
`get` reverts to the default; a value failing `valueOk` is rejected
(`InvalidValue`, atomic per call); otherwise the value is persisted under the
key. -/
def setCfg (schema : ConfigDef) (st : Store) (key : String) (v : Option ConfigValues) : Store :=
  match List.lookup key schema with
  | none => st
  | some field =>
      match v with
      | none => fun k => if k = key then none else st k
      | some w =>
          if valueOk field w then (fun k => if k = key then some w else st k) else st

/-- Modelled from the spec: `AppConfig.get` (declared at
`packages/trem-kit/src/index.ts:95-103`, implemented host-side).  Per §4.1
and the declaration's doc comment: `null` for a key that is not in the
schema; for a field that declares `choices`, the choices sequence (the
documented asymmetry of the contract); otherwise the stored value, or the
field's `default` when nothing is stored. -/
def getCfg (schema : ConfigDef) (st : Store) (key : String) : Option ConfigValues :=
  match List.lookup key schema with
  | none => none
  | some field =>
      match field.choices with
      | some cs => some (.arr cs)
      | none => some ((st key).getD field.default)

/-- The closed set of events of the `Events` interface in the source:
`load`, `eew`, `report`, `unload`. -/
inductive EventName
  | load
  | eew
  | report
  | unload
deriving DecidableEq, Repr

/-- One event registration held by the host's emitter.  A callback is
identified by a natural number (callback identity is all the contract
observes); `isOnce` records whether the registration was made with `once`
(removed after its first invocation) rather than `on`. -/
structure Listener where
  cb : Nat
  isOnce : Bool
deriving DecidableEq, Repr

/-- The callback identities of a registration list, in order. -/
def cbs (ls : List Listener) : List Nat := ls.map Listener.cb

/-- Modelled from the spec: the host's per-plugin event emitter state (§4.2,
implementing the `on`/`once`/`off` members declared at
`packages/trem-kit/src/index.ts:286-310`).  All registrations live in one
list in registration order; each is tagged with its event. -/
structure Emitter where
  regs : List (EventName × Listener)
deriving DecidableEq, Repr

/-- The registrations for one event, in registration order. -/
def listenersFor (st : Emitter) (e : EventName) : List Listener :=
  st.regs.filterMap (fun p => if p.1 = e then some p.2 else none)

/-- Modelled from the spec: `App.on` — appends a persistent registration
(§4.2: invoked every time the event fires, in registration order). -/
def onEv (st : Emitter) (e : EventName) (cb : Nat) : Emitter :=
  ⟨st.regs ++ [(e, ⟨cb, false⟩)]⟩

/-- Modelled from the spec: `App.once` — appends a one-shot registration
(§4.2: as `on`, but removed after its first invocation, strictly before any
subsequent callback for the same event fires within the same dispatch). -/
def onceEv (st : Emitter) (e : EventName) (cb : Nat) : Emitter :=
  ⟨st.regs ++ [(e, ⟨cb, true⟩)]⟩

/-- Modelled from the spec: `App.off` called without a callback argument —
removes every registration for the event, whether made by `on` or `once`
(§4.2 and the doc comment at `packages/trem-kit/src/index.ts:300-310`; the
second kit variant's `off` at line 443 only has this no-callback form). -/
def offEv (st : Emitter) (e : EventName) : Emitter :=
  ⟨st.regs.filter (fun p => p.1 ≠ e)⟩

/-- Modelled from the spec: the trace of one dispatch.  `keep` holds the
already-invoked registrations that survive (the non-`once` ones), `pending`
the registrations not yet invoked.  Each trace entry pairs the invoked
callback with the emitter's live registration list for the event at the
moment the *next* callback fires — i.e. after the just-invoked `once`
registration has been removed, which is exactly the spec's "removed after its
first invocation, strictly before any subsequent callback … fires within the
same dispatch". -/
def dispatchAux (keep : List Listener) : List Listener → List (Nat × List Listener)
  | [] => []
  | l :: rest =>
      let keep1 := if l.isOnce then keep else keep ++ [l]
      (l.cb, keep1 ++ rest) :: dispatchAux keep1 rest

/-- The trace of dispatching one event firing to a registration list. -/
def dispatchTrace (ls : List Listener) : List (Nat × List Listener) :=
  dispatchAux [] ls

/-- Modelled from the spec: firing an event (§4.2).  Every registration for
the event present when the firing starts is invoked once, in registration
order; afterwards the `once` registrations for that event are gone and
registrations for other events are untouched.  Returns the new emitter state
and the list of invoked callbacks in invocation order. -/
def emitEv (st : Emitter) (e : EventName) : Emitter × List Nat :=
  (⟨st.regs.filter (fun p => !(p.1 = e && p.2.isOnce))⟩,
   (dispatchTrace (listenersFor st e)).map Prod.fst)

/-- Loading position of a plugin dependency (`PluginDependency.position` in
the source): the dependency loads `before` or `after` the current plugin. -/
inductive DepPosition
  | before
  | after
deriving DecidableEq, Repr

/-- A plugin dependency (`PluginDependency` interface in the source). -/
structure PluginDependency where
  name : String
  position : DepPosition
deriving DecidableEq, Repr

/-- A plugin descriptor (`PluginDef<T>` interface in the source).  The type
parameter `S` stands for the representation of the `setup` callback, which
the factory never inspects. -/
structure PluginDef (S : Type) where
  name : String
  description : String
  version : String
  dependencies : Option (List PluginDependency)
  settings : ConfigDef
  setup : S

/-- `definePlugin` (`packages/trem-kit/src/index.ts:390-392`, and identically
at line 455 of the second kit variant): the body is `return plugin;`. -/
def definePlugin {S : Type} (p : PluginDef S) : PluginDef S := p

/-- An untyped JavaScript value, for the runtime view of `definePlugin`:
at runtime the function receives whatever object the caller built — possibly
with fields outside the declared descriptor shape, or with declared fields
missing.  Function values are represented opaquely by an identity number. -/
inductive JsValue
  | str (s : String)
  | num (n : Int)
  | bool (b : Bool)
  | null
  | func (id : Nat)
  | arr (xs : List JsValue)
  | obj (fields : List (String × JsValue))
deriving Repr

/-- The runtime behaviour of `definePlugin` on an arbitrary JavaScript value:
the source body is the single statement `return plugin;` — it contains no
inspection of its argument and no `throw`, so the embedding never produces an
error. -/
def definePluginDyn (p : JsValue) : Except String JsValue := .ok p

/-- The descriptor object literal the WebSocket example plugin
(`src/unnamed/part_001:12-29`) passes to `definePlugin`: it carries an
`author` field that is not part of the declared `PluginDef` shape.  (Its
`settings` values and `setup` closure are elided to representative leaves;
only the presence of the fields matters to the factory, which inspects
nothing.) -/
def websocketDescriptor : JsValue :=
  .obj [("name", .str "websocket"),
        ("description", .str "WebSocket implementation for TREM-Lite"),
        ("version", .str "1.0.0"),
        ("author", .arr []),
        ("settings", .obj [("key", .obj []), ("service", .obj [])]),
        ("setup", .func 0)]

end TremKit

namespace Websocket

/-!
Embedding of the WebSocket example plugin's `setup` closures
(`src/unnamed/part_001:30-49`):

```
let ws: WebSocket | null = null;
let url: string | null = null;
const destroy = () => { if (ws) { ws.close(); ws = null; } };
const connect = () => {
  destroy();
  url = `wss://lb-${Math.ceil(Math.random() * 4).toString()}.exptech.dev`;
  ws = new WebSocket(url);
};
app.on('load', connect);
app.on('unload', destroy);
```

Sockets are identified by creation order.  The state records the plugin's
`ws` and `url` variables together with the observable side effects: which
sockets are currently open and on which sockets `close` was invoked.
-/

/-- `Math.ceil(r * 4)` for an output `r` of `Math.random()`
(`src/unnamed/part_001:43`).  `r` is modelled as a rational: every IEEE-754
double in `[0, 1)` is a rational, and both the multiplication by 4 (an exact
scaling of the exponent) and `Math.ceil` are exact on doubles, so the
rational computation coincides with the JavaScript one. -/
def lbIndex (r : ℚ) : ℤ := ⌈r * 4⌉

/-- The endpoint URL `connect` computes. -/
def lbUrl (r : ℚ) : String := "wss://lb-" ++ toString (lbIndex r) ++ ".exptech.dev"

/-- The plugin's state between events, plus the socket side effects the
claims observe. -/
structure WsState where
  /-- the `ws` variable: the identifier of the socket it references, if any -/
  ws : Option Nat
  /-- the `url` variable -/
  url : Option String
  /-- identifiers of sockets currently open, in creation order -/
  openIds : List Nat
  /-- identifier the next `new WebSocket(...)` will receive -/
  nextId : Nat
  /-- identifiers of sockets on which `close()` has been invoked, in call order -/
  closeCalls : List Nat
deriving DecidableEq, Repr

/-- The state right after `setup` runs: `ws = null`, `url = null`, no socket
ever opened or closed. -/
def initState : WsState :=
  { ws := none, url := none, openIds := [], nextId := 0, closeCalls := [] }

/-- The `destroy` closure (`src/unnamed/part_001:34-39`): if `ws` is non-null,
invoke `close()` on it and set `ws` to null; otherwise do nothing. -/
def destroy (s : WsState) : WsState :=
  match s.ws with
  | some i =>
      { s with ws := none, openIds := s.openIds.erase i, closeCalls := s.closeCalls ++ [i] }
  | none => s

/-- The `connect` closure (`src/unnamed/part_001:41-45`), parameterised by the
`Math.random()` output `r` it consumes: first `destroy()`, then compute the
URL and open a fresh socket, storing it in `ws`. -/
def connect (r : ℚ) (s : WsState) : WsState :=
  let s1 := destroy s
  { s1 with
      ws := some s1.nextId,
      url := some (lbUrl r),
      openIds := s1.openIds ++ [s1.nextId],
      nextId := s1.nextId + 1 }

/-- An event firing the host can deliver to this plugin.  `setup` registers
`connect` on `load` and `destroy` on `unload`
(`src/unnamed/part_001:47-48`); a `load` firing carries the `Math.random()`
output that `connect` will consume. -/
inductive Ev
  | load (r : ℚ)
  | unload
deriving DecidableEq

/-- One event firing. -/
def step (s : WsState) : Ev → WsState
  | .load r => connect r s
  | .unload => destroy s

/-- A sequence of event firings, first event first. -/
def run (s : WsState) : List Ev → WsState
  | [] => s
  | e :: es => run (step s e) es

/-- The socket invariant: the sockets currently open are exactly the one the
plugin's `ws` variable references (so at most one socket is open between
events). -/
def SockInv (s : WsState) : Prop :=
  s.openIds = s.ws.toList

end Websocket

namespace Fixtures

/-- The `threshold` field of the specification's end-to-end example (§8):
`{default: 5, choices: [1, 5, 10]}`. -/
def thresholdField : TremKit.Config :=
  { name := "threshold", description := "example threshold",
    default := .prim (.num 5), choices := some [.num 1, .num 5, .num 10] }

/-- The `key` field of the WebSocket example plugin
(`src/unnamed/part_001:18-22`): a string field with default `''` and no
choices. -/
def keyField : TremKit.Config :=
  { name := "金鑰", description := "WebSocket 連線金鑰",
    default := .prim (.str ""), choices := none }

/-- A sample schema holding the two fixture fields. -/
def sampleSchema : TremKit.ConfigDef :=
  [("threshold", thresholdField), ("key", keyField)]

/-- A sample WebSocket plugin state holding one open socket, number 3. -/
def wsHolding3 : Websocket.WsState :=
  { ws := some 3, url := none, openIds := [3], nextId := 4, closeCalls := [] }

/-- A sample emitter: persistent listeners 7 and 9 and a one-shot listener 5
on `load` (in that registration order), plus a one-shot listener 5 on `eew`. -/
def sampleEmitter : TremKit.Emitter :=
  ⟨[(.load, .mk 7 false), (.load, .mk 5 true), (.load, .mk 9 false), (.eew, .mk 5 true)]⟩

end Fixtures

open TremKit Websocket Fixtures

/-- Claim C1: for every configuration field in the schema that declares
`choices`, `get(key)` returns exactly the field's choices sequence — whatever
the field's default is, whatever the storage holds, and after any
`set(key, v)`. -/
theorem claim1_get_returns_choices (schema : ConfigDef) (st : Store) (key : String)
    (field : Config) (cs : List ConfigValue)
    (hk : List.lookup key schema = some field) (hc : field.choices = some cs) :
    getCfg schema st key = some (.arr cs) ∧
    ∀ v, getCfg schema (setCfg schema st key v) key = some (.arr cs) := by
  constructor
  · simp [getCfg, hk, hc]
  · intro v
    simp [getCfg, hk, hc]

/-- Witness for C1 on the specification's end-to-end example (§8): with the
`threshold` field `{default: 5, choices: [1,5,10]}`, `get` returns
`[1,5,10]` on a fresh store, and still after `set('threshold', 10)`. -/
theorem claim1_witness :
    getCfg sampleSchema emptyStore "threshold" = some (.arr [.num 1, .num 5, .num 10]) ∧
    getCfg sampleSchema (setCfg sampleSchema emptyStore "threshold" (some (.arr [.num 10])))
        "threshold" = some (.arr [.num 1, .num 5, .num 10]) :=
  ⟨(claim1_get_returns_choices sampleSchema emptyStore "threshold" thresholdField
      [.num 1, .num 5, .num 10] rfl rfl).1,
   (claim1_get_returns_choices sampleSchema emptyStore "threshold" thresholdField
      [.num 1, .num 5, .num 10] rfl rfl).2 (some (.arr [.num 10]))⟩

/-- Claim C2: for a configuration field without `choices`, `set(key, v)` with
a value of the field's declared type followed by `get(key)` returns `v`, and
`set(key, null)` followed by `get(key)` returns the field's `default`. -/
theorem claim2_set_get_roundtrip (schema : ConfigDef) (st : Store) (key : String)
    (field : Config) (v : ConfigValues)
    (hk : List.lookup key schema = some field) (hc : field.choices = none)
    (hv : valueOk field v = true) :
    getCfg schema (setCfg schema st key (some v)) key = some v ∧
    getCfg schema (setCfg schema st key none) key = some field.default := by
  constructor
  · simp [getCfg, setCfg, hk, hc, hv]
  · simp [getCfg, setCfg, hk, hc]

/-- Witness for C2 on the WebSocket plugin's `key` field (a string field with
no choices): `set('key', 'abc')` then `get('key')` yields `'abc'`, and
`set('key', null)` then `get('key')` yields the default `''`. -/
theorem claim2_witness :
    getCfg sampleSchema (setCfg sampleSchema emptyStore "key" (some (.prim (.str "abc"))))
        "key" = some (.prim (.str "abc")) ∧
    getCfg sampleSchema (setCfg sampleSchema emptyStore "key" none)
        "key" = some (.prim (.str "")) :=
  claim2_set_get_roundtrip sampleSchema emptyStore "key" keyField
    (.prim (.str "abc")) rfl rfl rfl

/-- Claim C3: `get(key)` returns `null` exactly when `key` is not a key of
the declared schema; on every schema key it returns a value (the model is a
total function, so no exception is possible), even when nothing was set. -/
theorem claim3_get_null_iff_invalid_key (schema : ConfigDef) (st : Store) (key : String) :
    getCfg schema st key = none ↔ List.lookup key schema = none := by
  cases hk : List.lookup key schema with
  | none => simp [getCfg, hk]
  | some field => cases hc : field.choices <;> simp [getCfg, hk, hc]

/-- Claim C6: `definePlugin` returns its argument unchanged — it is the
identity on plugin descriptors. -/
theorem claim6_definePlugin_identity {S : Type} (p : PluginDef S) : definePlugin p = p :=
  rfl

/-- Claim C10: at runtime `definePlugin` validates nothing and never raises:
on every JavaScript value — in particular the WebSocket plugin's descriptor,
which carries an `author` field outside the declared shape — it returns its
input unchanged and produces no error. -/
theorem claim10_definePlugin_no_validation :
    (∀ v : JsValue, definePluginDyn v = .ok v) ∧
    definePluginDyn websocketDescriptor = .ok websocketDescriptor :=
  ⟨fun _ => rfl, rfl⟩

/-- Claim C7: in the WebSocket example plugin, firing `load` (with any
pseudo-random output `r`) opens socket 0 and stores it in `ws`; the
subsequent `unload` firing invokes `close` on exactly that socket within its
(synchronous) handling, after which the plugin references no socket and no
socket remains open. -/
theorem claim7_unload_closes_loaded_socket (r : ℚ) :
    (run initState [.load r]).ws = some 0 ∧
    (run initState [.load r]).openIds = [0] ∧
    (run initState [.load r, .unload]).closeCalls = [0] ∧
    (run initState [.load r, .unload]).ws = none ∧
    (run initState [.load r, .unload]).openIds = [] := by
  refine ⟨?_, ?_, ?_, ?_, ?_⟩ <;>
    simp [run, step, connect, destroy, initState]

/-- `destroy` always leaves the `ws` reference null. -/
theorem destroy_ws_none (s : WsState) : (destroy s).ws = none := by
  cases h : s.ws <;> simp [destroy, h]

/-- On a state satisfying the socket invariant, `destroy` closes everything:
no socket stays open and `ws` is null. -/
theorem destroy_closes_all (s : WsState) (h : SockInv s) :
    (destroy s).openIds = [] ∧ (destroy s).ws = none := by
  cases hw : s.ws with
  | none =>
      have : s.openIds = [] := by simpa [SockInv, hw] using h
      simp [destroy, hw, this]
  | some i =>
      have : s.openIds = [i] := by simpa [SockInv, hw] using h
      simp [destroy, hw, this]

/-- One event firing preserves the socket invariant. -/
theorem sockInv_step (s : WsState) (h : SockInv s) (e : Ev) : SockInv (step s e) := by
  cases e with
  | load r =>
      obtain ⟨ho, hw⟩ := destroy_closes_all s h
      simp [step, connect, SockInv, ho, hw]
  | unload =>
      obtain ⟨ho, hw⟩ := destroy_closes_all s h
      simp [step, SockInv, ho, hw]

/-- Any sequence of event firings preserves the socket invariant. -/
theorem sockInv_run (s : WsState) (h : SockInv s) (es : List Ev) : SockInv (run s es) := by
  induction es generalizing s with
  | nil => exact h
  | cons e es ih => exact ih (step s e) (sockInv_step s h e)

/-- Claim C9: the WebSocket plugin's socket invariant.  After every
interleaving of `load` and `unload` firings, the open sockets are exactly
the one `ws` references — in particular at most one socket is open between
events; `connect` invokes `close` on any socket `ws` references before
opening the new one; and `destroy` always leaves `ws` null. -/
theorem claim9_socket_invariant :
    (∀ es : List Ev, SockInv (run initState es) ∧ (run initState es).openIds.length ≤ 1) ∧
    (∀ (r : ℚ) (s : WsState) (i : Nat), s.ws = some i → i ∈ (connect r s).closeCalls) ∧
    (∀ s : WsState, (destroy s).ws = none) := by
  refine ⟨fun es => ?_, fun r s i hw => ?_, destroy_ws_none⟩
  · have hinv : SockInv (run initState es) :=
      sockInv_run initState (by simp [SockInv, initState]) es
    refine ⟨hinv, ?_⟩
    rw [SockInv] at hinv
    rw [hinv]
    cases (run initState es).ws <;> simp
  · simp [connect, destroy, hw]

/-- Witness for C9: a concrete interleaving (`load`, `load`, `unload`)
satisfies the invariant, a state holding socket 3 has `close` invoked on it
by `connect`, and `destroy` on that state nulls `ws`. -/
theorem claim9_witness :
    (SockInv (run initState [.load 0, .load 0, .unload]) ∧
      (run initState [.load 0, .load 0, .unload]).openIds.length ≤ 1) ∧
    (3 : Nat) ∈ (connect 0 wsHolding3).closeCalls ∧
    (destroy wsHolding3).ws = none :=
  ⟨claim9_socket_invariant.1 [.load 0, .load 0, .unload],
   claim9_socket_invariant.2.1 0 wsHolding3 3 rfl,
   claim9_socket_invariant.2.2 wsHolding3⟩

/-- Counterexample for C8: `r = 0` is a possible output of the pseudo-random
source (its range is `[0, 1)`), and there the computed index
`Math.ceil(0 * 4)` is `0`, not a member of `{1, 2, 3, 4}` — the URL names
`lb-0`, outside the fixed pool. -/
theorem claim8_counterexample :
    (0 : ℚ) ≤ 0 ∧ (0 : ℚ) < 1 ∧ lbIndex 0 = 0 ∧
    ¬(lbIndex 0 = 1 ∨ lbIndex 0 = 2 ∨ lbIndex 0 = 3 ∨ lbIndex 0 = 4) ∧
    lbUrl 0 = "wss://lb-0.exptech.dev" := by
  have hz : lbIndex 0 = 0 := by norm_num [lbIndex]
  refine ⟨le_refl 0, by norm_num, hz, by norm_num [hz], ?_⟩
  rw [lbUrl, hz]
  rfl

/-- Claim C8 as amended: for every output `r` of the pseudo-random source
with `0 < r < 1` the computed index `Math.ceil(r * 4)` lies in
`{1, 2, 3, 4}`; at the remaining possible output `r = 0` the index is `0`,
outside the pool. -/
theorem claim8_amended (r : ℚ) (h0 : 0 < r) (h1 : r < 1) :
    lbIndex r = 1 ∨ lbIndex r = 2 ∨ lbIndex r = 3 ∨ lbIndex r = 4 := by
  have hlo : 0 < lbIndex r := Int.ceil_pos.mpr (by positivity)
  have h4 : r * 4 ≤ ((4 : ℤ) : ℚ) := by push_cast; nlinarith
  have hhi : lbIndex r ≤ 4 := Int.ceil_le.mpr h4
  omega

/-- Witness for the amended C8: at `r = 1/2` the hypotheses hold and the
index lands in the pool (it is in fact 2). -/
theorem claim8_amended_witness :
    (0 : ℚ) < 1/2 ∧ (1/2 : ℚ) < 1 ∧
    (lbIndex (1/2) = 1 ∨ lbIndex (1/2) = 2 ∨ lbIndex (1/2) = 3 ∨ lbIndex (1/2) = 4) :=
  ⟨by norm_num, by norm_num, claim8_amended (1/2) (by norm_num) (by norm_num)⟩

/-- The invoked callbacks of a dispatch are exactly the pending registrations'
callbacks, in order, regardless of the surviving-prefix accumulator. -/
theorem dispatchAux_map_fst (keep pending : List Listener) :
    (dispatchAux keep pending).map Prod.fst = cbs pending := by
  induction pending generalizing keep with
  | nil => rfl
  | cons l rest ih => simp [dispatchAux, cbs, ih]

/-- Splitting a dispatch: the entries for a prefix carry the untouched suffix
in their live lists, and the suffix is dispatched with the prefix's survivors
accumulated. -/
theorem dispatchAux_append (keep xs ys : List Listener) :
    dispatchAux keep (xs ++ ys) =
      (dispatchAux keep xs).map (fun p => (p.1, p.2 ++ ys)) ++
        dispatchAux (keep ++ xs.filter (fun l => !l.isOnce)) ys := by
  induction xs generalizing keep with
  | nil => simp [dispatchAux]
  | cons l xs ih =>
      by_cases ho : l.isOnce <;>
        simp [dispatchAux, ho, ih, List.append_assoc]

/-- If a callback occurs neither among the survivors so far nor among the
pending registrations, it occurs in no live list of the dispatch trace. -/
theorem dispatchAux_avoid (cb : Nat) (keep pending : List Listener) :
    cb ∉ cbs keep → cb ∉ cbs pending →
    ∀ p ∈ dispatchAux keep pending, cb ∉ cbs p.2 := by
  induction pending generalizing keep with
  | nil =>
      intro _ _ p hmem
      simp [dispatchAux] at hmem
  | cons l rest ih =>
      intro hk hp p hmem
      simp only [cbs, List.map_cons, List.mem_cons, not_or] at hp
      obtain ⟨hne, hrest⟩ := hp
      have hrest' : cb ∉ cbs rest := by simpa [cbs] using hrest
      by_cases ho : l.isOnce
      · simp only [dispatchAux, ho, if_true, List.mem_cons] at hmem
        rcases hmem with h | h
        · subst h
          simp only [cbs, List.map_append, List.mem_append, not_or]
          exact ⟨by simpa [cbs] using hk, hrest⟩
        · exact ih keep hk hrest' p h
      · have hk1 : cb ∉ cbs (keep ++ [l]) := by
          simp only [cbs, List.map_append, List.mem_append, not_or]
          exact ⟨by simpa [cbs] using hk, by simpa [cbs] using hne⟩
        simp only [dispatchAux, ho, if_false, List.mem_cons] at hmem
        rcases hmem with h | h
        · subst h
          simp only [cbs, List.map_append, List.mem_append, not_or]
          exact ⟨by simpa [cbs] using hk1, hrest⟩
        · exact ih (keep ++ [l]) hk1 hrest' p h

/-- `once` appends a one-shot registration for the event, after the existing
ones. -/
theorem listenersFor_onceEv (st : Emitter) (e : EventName) (cb : Nat) :
    listenersFor (onceEv st e cb) e = listenersFor st e ++ [Listener.mk cb true] := by
  simp [onceEv, listenersFor]

/-- `off` without a callback leaves no registration for the event. -/
theorem listenersFor_offEv (st : Emitter) (e : EventName) :
    listenersFor (offEv st e) e = [] := by
  rw [offEv, listenersFor]
  induction st.regs with
  | nil => rfl
  | cons p rest ih =>
      by_cases h : p.1 = e <;> simp [h, ih, List.filter_cons]

/-- Selecting an event's registrations commutes with dropping its one-shot
registrations from the full registration list. -/
theorem filterMap_drop_once (e : EventName) (regs : List (EventName × Listener)) :
    List.filterMap (fun p => if p.1 = e then some p.2 else none)
        (regs.filter (fun p => !(p.1 = e && p.2.isOnce))) =
      (List.filterMap (fun p => if p.1 = e then some p.2 else none) regs).filter
        (fun l => !l.isOnce) := by
  simp only [Bool.not_and]
  induction regs with
  | nil => rfl
  | cons p rest ih =>
      by_cases h : p.1 = e
      · by_cases ho : p.2.isOnce <;> simp [h, ho, List.filter_cons, ih]
      · simp [h, List.filter_cons, ih]

/-- Firing an event keeps exactly the non-one-shot registrations for it. -/
theorem listenersFor_emitEv (st : Emitter) (e : EventName) :
    listenersFor (emitEv st e).1 e = (listenersFor st e).filter (fun l => !l.isOnce) := by
  rw [emitEv, listenersFor, listenersFor]
  exact filterMap_drop_once e st.regs

/-- The callbacks a firing invokes are the registered callbacks for the
event, in registration order. -/
theorem emitEv_calls (st : Emitter) (e : EventName) :
    (emitEv st e).2 = cbs (listenersFor st e) := by
  rw [emitEv, dispatchTrace, dispatchAux_map_fst]

/-- A callback absent from a registration list is absent from its
non-one-shot sublist. -/
theorem cbs_filter_not_mem (cb : Nat) (xs : List Listener) (hxs : cb ∉ cbs xs) :
    cb ∉ cbs (xs.filter (fun l => !l.isOnce)) := by
  intro hmem
  simp only [cbs, List.mem_map] at hmem hxs
  obtain ⟨l, hl, hcb⟩ := hmem
  exact hxs ⟨l, (List.mem_filter.mp hl).1, hcb⟩

/-- Claim C4: a callback registered with `once(e, cb)` (a one-shot
registration, which `once` appends to the event's listener list) is invoked
exactly once when `e` fires twice: once in the first firing, not at all in
the second; its registration is gone from the emitter after the first
firing; and within the first dispatch the registration is removed strictly
before any subsequent callback fires — the live registration list paired
with every later invocation of the dispatch trace no longer holds `cb`. -/
theorem claim4_once_invokes_exactly_once (st : Emitter) (e : EventName) (cb : Nat)
    (pre post : List Listener)
    (hls : listenersFor st e = pre ++ Listener.mk cb true :: post)
    (hpre : cb ∉ cbs pre) (hpost : cb ∉ cbs post) :
    (∀ st0 : Emitter, listenersFor (onceEv st0 e cb) e =
        listenersFor st0 e ++ [Listener.mk cb true]) ∧
    (emitEv st e).2.count cb = 1 ∧
    (emitEv (emitEv st e).1 e).2.count cb = 0 ∧
    cb ∉ cbs (listenersFor (emitEv st e).1 e) ∧
    (∃ tr1 live tr2,
      dispatchTrace (listenersFor st e) = tr1 ++ (cb, live) :: tr2 ∧
      (∀ p ∈ tr1, p.1 ≠ cb) ∧ cb ∉ cbs live ∧ ∀ p ∈ tr2, cb ∉ cbs p.2) := by
  have hpreF := cbs_filter_not_mem cb pre hpre
  have hpre0 : (cbs pre).count cb = 0 := List.count_eq_zero.mpr hpre
  have hpost0 : (cbs post).count cb = 0 := List.count_eq_zero.mpr hpost
  have h1 : (emitEv st e).2.count cb = 1 := by
    rw [emitEv_calls, hls,
      show cbs (pre ++ Listener.mk cb true :: post) = cbs pre ++ cb :: cbs post from by
        simp [cbs]]
    simp [List.count_append, hpre0, hpost0]
  have hLf : listenersFor (emitEv st e).1 e =
      pre.filter (fun l => !l.isOnce) ++ post.filter (fun l => !l.isOnce) := by
    rw [listenersFor_emitEv, hls]
    simp [List.filter_append, List.filter_cons]
  have h3 : cb ∉ cbs (listenersFor (emitEv st e).1 e) := by
    rw [hLf]
    simp only [cbs, List.map_append, List.mem_append, not_or]
    exact ⟨hpreF, cbs_filter_not_mem cb post hpost⟩
  have h2 : (emitEv (emitEv st e).1 e).2.count cb = 0 := by
    rw [emitEv_calls]
    exact List.count_eq_zero.mpr h3
  refine ⟨fun st0 => listenersFor_onceEv st0 e cb, h1, h2, h3,
    (dispatchAux [] pre).map (fun p => (p.1, p.2 ++ Listener.mk cb true :: post)),
    pre.filter (fun l => !l.isOnce) ++ post,
    dispatchAux (pre.filter (fun l => !l.isOnce)) post, ?_, ?_, ?_, ?_⟩
  · rw [hls, dispatchTrace, dispatchAux_append]
    simp [dispatchAux]
  · intro p hp hcb
    have hfst : p.1 ∈ (dispatchAux [] pre).map Prod.fst := by
      simp only [List.mem_map] at hp ⊢
      obtain ⟨q, hq, rfl⟩ := hp
      exact ⟨q, hq, rfl⟩
    rw [dispatchAux_map_fst] at hfst
    exact hpre (hcb ▸ hfst)
  · simp only [cbs, List.map_append, List.mem_append, not_or]
    exact ⟨hpreF, hpost⟩
  · exact dispatchAux_avoid cb (pre.filter (fun l => !l.isOnce)) post hpreF hpost

/-- Witness for C4 on the sample emitter (persistent listeners 7 and 9
around a one-shot listener 5 on `load`): firing `load` twice invokes
callback 5 exactly once. -/
theorem claim4_witness :
    (emitEv sampleEmitter .load).2.count 5 = 1 ∧
    (emitEv (emitEv sampleEmitter .load).1 .load).2.count 5 = 0 ∧
    5 ∉ cbs (listenersFor (emitEv sampleEmitter .load).1 .load) :=
  ⟨(claim4_once_invokes_exactly_once sampleEmitter .load 5 [Listener.mk 7 false]
      [Listener.mk 9 false] (by decide) (by decide) (by decide)).2.1,
   (claim4_once_invokes_exactly_once sampleEmitter .load 5 [Listener.mk 7 false]
      [Listener.mk 9 false] (by decide) (by decide) (by decide)).2.2.1,
   (claim4_once_invokes_exactly_once sampleEmitter .load 5 [Listener.mk 7 false]
      [Listener.mk 9 false] (by decide) (by decide) (by decide)).2.2.2.1⟩

/-- Claim C5: `off(e)` with no callback argument removes every registration
for `e` — made by `on` or by `once` alike — and firing `e` afterward invokes
no callback. -/
theorem claim5_off_removes_all_listeners (st : Emitter) (e : EventName) :
    listenersFor (offEv st e) e = [] ∧ (emitEv (offEv st e) e).2 = [] := by
  have h := listenersFor_offEv st e
  exact ⟨h, by rw [emitEv_calls, h]; rfl⟩
